import Mathlib

/-!
Shallow embedding, in Lean 4, of the core of `src/src-tauri/src/lib.rs`
(the backend of the LyricsAdapter desktop music player):

* the LRC lyric decoder `parse_lrc_lyrics`,
* the metadata extractor `parse_audio_metadata` (its pure tag-processing
  and fallback logic; the `lofty` tag reader itself is an external
  dependency and enters the model as explicit input data),
* the metadata cache endpoints `load_metadata_cache` / `save_metadata_cache`
  (the `serde_json` serializer is an external dependency and enters the
  model as a serialize/parse function pair),
* the audio streaming responder `AudioProtocolHandler::handle_request`
  (the filesystem and the `urlencoding` percent-decoder enter the model as
  explicit parameters).

Strings are processed as `List Char`; all functions are structurally (or
fuel-) recursive so every definition evaluates inside the kernel.

On numbers: the Rust code stores lyric timestamps as `f64` seconds computed
as `mins as f64 * 60.0 + secs as f64 + millis as f64 / 1000.0` from `u64`
components with `mins ≤ 99`, `secs ≤ 99`, `millis ≤ 999` (two-digit and
three-digit decimal fields).  Every representable time is an integer count
of milliseconds below 6 040 000; distinct counts differ by at least 1 ms
while the accumulated `f64` rounding error on values below 6 040 is smaller
than 10⁻⁸ ms, so the map from millisecond counts to the `f64` values the
code computes is strictly monotone and injective.  The model therefore
stores the exact count of milliseconds (`timeMs : Nat`); equality and
order of model times coincide with equality and order of the `f64` times.
Seconds-valued statements use `msToSeconds` (exact division in `ℚ`).
-/

/-- One entry of the synced-lyrics timeline (Rust `struct LyricLine`).
The Rust field `time : f64` holds seconds; the model holds the exact number
of milliseconds (see the header comment on numbers). -/
structure LyricLine where
  timeMs : Nat
  text : String
deriving Repr, DecidableEq

/-- The exact seconds value of a millisecond count, as a rational. -/
def msToSeconds (ms : Nat) : ℚ := (ms : ℚ) / 1000

/-- Numeric value of a string of decimal digits (the model of
`str::parse::<u64>()` on the all-ASCII-digit capture groups; within the
2–3 digit captures of the timestamp regex the parse never fails and never
overflows). -/
def natOfDigits (cs : List Char) : Nat :=
  cs.foldl (fun n c => n * 10 + (c.toNat - 48)) 0

/-- Normalization of the parsed fractional field to milliseconds, verbatim
from the Rust closure (`if m < 10 { m * 100 } else if m < 100 { m * 10 }
else { m }`).  Note it branches on the parsed numeric *value*, not on the
digit count: the capture `"05"` parses to `5 < 10` and is scaled ×100. -/
def normalizeMillis (m : Nat) : Nat :=
  if m < 10 then m * 100 else if m < 100 then m * 10 else m

/-- Milliseconds contributed by the optional fractional capture group:
`cap.get(3).and_then(parse).map(normalize).unwrap_or(0)`. -/
def fracMillis : Option Nat → Nat
  | some m => normalizeMillis m
  | none => 0

/-- Matcher for the fractional part of a timestamp, entered after the
literal `'.'`: the regex fragment `(\d{2,3})` followed by the closing
`']'`.  `\d{2,3}` is greedy, so a third digit is consumed when (and only
when) a `']'` follows it; otherwise exactly two digits must be followed by
`']'`.  Returns the parsed fractional value and the text after `']'`.
(The model reads the regex crate's `\d` as an ASCII digit; the inputs the
claims quantify over contain only ASCII digits.) -/
def lrcFrac (cs : List Char) : Option (Nat × List Char) :=
  match cs with
  | f1 :: f2 :: rest =>
    if f1.isDigit && f2.isDigit then
      match rest with
      | f3 :: rest2 =>
        if f3.isDigit then
          match rest2 with
          | ']' :: rest3 => some (natOfDigits [f1, f2, f3], rest3)
          | _ => none
        else if f3 = ']' then some (natOfDigits [f1, f2], rest2)
        else none
      | [] => none
    else none
  | _ => none

/-- Attempt to match the timestamp regex
`\[(\d{2}):(\d{2})(?:\.(\d{2,3}))?\]` at the start of `cs`.
On success returns the minutes value, the seconds value, the optional
parsed fractional value, and the remaining text after the marker. -/
def lrcMatchAt (cs : List Char) : Option (Nat × Nat × Option Nat × List Char) :=
  match cs with
  | '[' :: m1 :: m2 :: ':' :: s1 :: s2 :: rest =>
    if m1.isDigit && m2.isDigit && s1.isDigit && s2.isDigit then
      match rest with
      | ']' :: rest1 => some (natOfDigits [m1, m2], natOfDigits [s1, s2], none, rest1)
      | '.' :: rest1 =>
        match lrcFrac rest1 with
        | some (frac, rest2) =>
          some (natOfDigits [m1, m2], natOfDigits [s1, s2], some frac, rest2)
        | none => none
      | _ => none
    else none
  | _ => none

/-- The scan of one (already trimmed) line, fuel-recursive so that it
evaluates in the kernel.  Models the combination of
`time_regex.captures_iter` (the list of matches, left to right,
non-overlapping, converted to total milliseconds) and
`time_regex.replace_all(line, "")` (the line with the matched markers
deleted): both Rust calls walk the same match set of the same regex over
the same line.  Returns (times in milliseconds, text with markers removed).
With fuel at least `cs.length` the fuel never runs out. -/
def lrcScanF : Nat → List Char → List Nat × List Char
  | 0, cs => ([], cs)
  | fuel + 1, cs =>
    match lrcMatchAt cs with
    | some (mins, secs, frac, rest) =>
      let t := 60000 * mins + 1000 * secs + fracMillis frac
      let (ts, out) := lrcScanF fuel rest
      (t :: ts, out)
    | none =>
      match cs with
      | [] => ([], [])
      | c :: cs' =>
        let (ts, out) := lrcScanF fuel cs'
        (ts, c :: out)

/-- The scan of one trimmed line (see `lrcScanF`). -/
def lrcScan (cs : List Char) : List Nat × List Char :=
  lrcScanF cs.length cs

/-- Characters trimmed by `str::trim` (the model restricts Unicode
whitespace to its ASCII part, which covers every input the claims
mention). -/
def isWsChar (c : Char) : Bool :=
  c = ' ' || c = '\t' || c = '\r' || c = '\n'

/-- Model of `str::trim`. -/
def trimChars (cs : List Char) : List Char :=
  ((cs.dropWhile isWsChar).reverse.dropWhile isWsChar).reverse

/-- Split a character list at every occurrence of `sep` (both separators
of `str::lines` and the `'&'` split of the query string are single
characters). -/
def splitOnSep (sep : Char) : List Char → List (List Char)
  | [] => [[]]
  | c :: cs =>
    if c = sep then [] :: splitOnSep sep cs
    else
      match splitOnSep sep cs with
      | [] => [[c]]
      | l :: ls => (c :: l) :: ls

/-- Model of `str::lines`: split at `'\n'`; every segment that was
terminated by a `'\n'` loses a trailing `'\r'`; a final untermintated
empty segment yields no line. -/
def rustLines (cs : List Char) : List (List Char) :=
  let segs := splitOnSep '\n' cs
  let stripCR : List Char → List Char := fun l =>
    if l.getLast? = some '\r' then l.dropLast else l
  segs.dropLast.map stripCR ++
    (match segs.getLast? with
     | some [] => []
     | some l => [l]
     | none => [])

/-- The per-line work of `parse_lrc_lyrics`' loop body on a non-blank
line: the millisecond times of all timestamp markers on the trimmed line,
and the display text (markers removed, then trimmed again). -/
def lrcLineData (line : List Char) : List Nat × List Char :=
  let t := trimChars line
  let (ts, stripped) := lrcScan t
  (ts, trimChars stripped)

/-- The synced entries accumulated by the loop of `parse_lrc_lyrics`, in
input order (before the final sort): for each non-blank line whose marker
list and display text are both non-empty, one entry per marker. -/
def lrcRawEntries (lrc : String) : List LyricLine :=
  (rustLines lrc.data).flatMap fun line =>
    if (trimChars line).isEmpty then []
    else
      let p := lrcLineData line
      if !p.1.isEmpty && !p.2.isEmpty then
        p.1.map fun tm => { timeMs := tm, text := String.mk p.2 }
      else []

/-- The plain-text lines accumulated by the loop of `parse_lrc_lyrics`:
each non-blank line contributes its display text once when that text is
non-empty (whether or not the line carried timestamps). -/
def lrcPlainLines (lrc : String) : List (List Char) :=
  (rustLines lrc.data).filterMap fun line =>
    if (trimChars line).isEmpty then none
    else
      let p := lrcLineData line
      if p.2.isEmpty then none else some p.2

/-- Model of the `Vec::join` call with separator `"\n"`. -/
def joinNL : List (List Char) → List Char
  | [] => []
  | [l] => l
  | l :: ls => l ++ '\n' :: joinNL ls

/-- The comparison `a.time.partial_cmp(&b.time)` used by the final
`sort_by`, as a boolean order on model entries; times are never NaN (they
are built from unsigned components), so the comparison is the total order
on the underlying millisecond counts. -/
def lyricTimeLe (a b : LyricLine) : Bool := a.timeMs ≤ b.timeMs

/-- Model of `parse_lrc_lyrics` (src/src-tauri/src/lib.rs:623-696).
Rust's `slice::sort_by` is a stable merge sort, modelled by the stable
`List.mergeSort`.  The regex-compilation-failure early return of the Rust
code is dead for this fixed, well-formed pattern and is not modelled. -/
def parse_lrc_lyrics (lrc : String) : String × Option (List LyricLine) :=
  let synced := (lrcRawEntries lrc).mergeSort lyricTimeLe
  let plain := String.mk (joinNL (lrcPlainLines lrc))
  (plain, if synced.isEmpty then none else some synced)

/-! ## Streaming responder (`AudioProtocolHandler::handle_request`) -/

/-- Boolean `str::starts_with` on character lists. -/
def listStarts : List Char → List Char → Bool
  | [], _ => true
  | _ :: _, [] => false
  | a :: as, b :: bs => a = b && listStarts as bs

/-- Model of `str::starts_with`. -/
def strStarts (s pre : String) : Bool := listStarts pre.data s.data

/-- Model of `str::ends_with`. -/
def strEnds (s suf : String) : Bool := listStarts suf.data.reverse s.data.reverse

/-- Model of `str::split(sep)` for a single-character separator (empty
segments included, as in Rust). -/
def strSplit (sep : Char) (s : String) : List String :=
  (splitOnSep sep s.data).map String.mk

/-- Drop `n` leading characters of a string (the effect of
`str::strip_prefix` once the prefix is known to be present). -/
def strDropN (s : String) (n : Nat) : String := String.mk (s.data.drop n)

/-- The path-resolution step of `handle_request`
(src/src-tauri/src/lib.rs:708-720): first try to strip the literal path
segment `"/audio-file/"` from the request path (the stripped remainder is
used verbatim, with no percent-decoding); only if the path does not carry
that segment, look for the first `'&'`-separated query segment starting
with `"path="` and percent-decode its value.  `decode` is the external
`urlencoding::decode` (`none` models a decode failure). -/
def resolveFilePath (decode : String → Option String) (path : String)
    (query : Option String) : Option String :=
  if strStarts path "/audio-file/" then
    some (strDropN path "/audio-file/".data.length)
  else
    query.bind fun q =>
      ((strSplit '&' q).find? fun seg => strStarts seg "path=").bind fun seg =>
        decode (strDropN seg 5)

/-- The content-type inference of `handle_request`
(src/src-tauri/src/lib.rs:740-750): an `ends_with` cascade with
`"audio/flac"` as the default. -/
def audioContentType (file_path : String) : String :=
  if strEnds file_path ".flac" then "audio/flac"
  else if strEnds file_path ".mp3" then "audio/mpeg"
  else if strEnds file_path ".m4a" then "audio/mp4"
  else if strEnds file_path ".wav" then "audio/wav"
  else "audio/flac"

/-- An HTTP response of the responder.  File bytes and error text both
travel as the abstract `body` string (`hyper` bodies are byte buffers; no
claim inspects individual bytes). -/
structure HttpResponse where
  status : Nat
  headers : List (String × String)
  body : String
deriving Repr, DecidableEq

/-- The filesystem as the responder sees it: the `PathBuf::exists` check
and the `fs::read` call (whose failure carries an error text). -/
structure FileSystem where
  pathExists : String → Bool
  readFile : String → Except String String

/-- Model of `AudioProtocolHandler::handle_request`
(src/src-tauri/src/lib.rs:703-777): resolve a file path (else 400), check
existence (else 404), read the file (on failure 500 with the formatted
error); on success 200 with the inferred content type, the CORS headers
and the `Accept-Ranges` declaration. -/
def handle_request (fsys : FileSystem) (decode : String → Option String)
    (path : String) (query : Option String) : HttpResponse :=
  match resolveFilePath decode path query with
  | some file_path =>
    if !fsys.pathExists file_path then
      { status := 404, headers := [], body := "File not found" }
    else
      match fsys.readFile file_path with
      | .ok data =>
        { status := 200
          headers := [("Content-Type", audioContentType file_path),
                      ("Access-Control-Allow-Origin", "*"),
                      ("Access-Control-Allow-Methods", "GET, HEAD, OPTIONS"),
                      ("Accept-Ranges", "bytes")]
          body := data }
      | .error e =>
        { status := 500, headers := [], body := "Failed to read file: " ++ e }
  | none => { status := 400, headers := [], body := "Invalid request" }

/-! ## Metadata cache (`load_metadata_cache` / `save_metadata_cache`) -/

/-- One cache entry (Rust `struct CachedMetadata`).  `duration` is the
`f64` seconds value, carried opaquely (no arithmetic is performed on it),
modelled as an exact rational. -/
structure CachedMetadata where
  title : String
  artist : String
  album : String
  duration : ℚ
  lyrics : String
  synced_lyrics : Option (List LyricLine)
  cover_data : Option String
  cover_mime : Option String
  file_name : String
  file_size : Nat
  last_modified : Nat
deriving DecidableEq

/-- Rust `struct MetadataCache`: a `HashMap<String, CachedMetadata>`,
modelled as its association list (unique keys; no claim depends on
iteration order). -/
structure MetadataCache where
  entries : List (String × CachedMetadata)
deriving DecidableEq

/-- Model of `load_metadata_cache` (src/src-tauri/src/lib.rs:414-437).
`persisted` is the state of the cache document on disk: `none` when
`cache_path.exists()` is false, `some content` when the document exists
and reads back as `content` (a read error, which also maps to `Err`, is
not separately modelled).  `parseCache` is the external
`serde_json::from_str`, returning `none` exactly when the document does
not parse as a `MetadataCache`. -/
def load_metadata_cache (parseCache : String → Option MetadataCache)
    (persisted : Option String) : Except String MetadataCache :=
  match persisted with
  | none => .ok { entries := [] }
  | some content =>
    match parseCache content with
    | some cache => .ok cache
    | none => .error "failed to parse metadata cache JSON"

/-- Model of `save_metadata_cache` (src/src-tauri/src/lib.rs:439-457):
serializes the cache with the external `serde_json::to_string_pretty`
(`serCache`) and overwrites the persisted document with the result; the
value returned is the persisted-document state a subsequent load sees. -/
def save_metadata_cache (serCache : MetadataCache → String)
    (cache : MetadataCache) : Option String :=
  some (serCache cache)

/-! ## Metadata extraction (`parse_audio_metadata`) -/

/-- One tag item as the extraction loop sees it: the `Debug` rendering of
`item.key()` and the optional text of `item.value()`. -/
structure TagItem where
  key_debug : String
  text : Option String

/-- One embedded picture: its optional declared mime type and its raw
bytes (abstract). -/
structure TagPicture where
  mime_type : Option String
  data : String

/-- The first tag block of the container, as produced by the external
`lofty` reader. -/
structure AudioTag where
  items : List TagItem
  pictures : List TagPicture

/-- The parsed audio file: the container-level duration (in seconds,
carried opaquely) and the optional first tag block. -/
structure TaggedFile where
  durationSecs : ℚ
  tag : Option AudioTag

/-- The four role strings filled by the extraction loop. -/
structure RawTags where
  title : String
  artist : String
  album : String
  lyrics : String
deriving DecidableEq

/-- Boolean substring test (model of `str::contains`). -/
def listHasSub (hay pat : List Char) : Bool :=
  match hay with
  | [] => pat.isEmpty
  | _ :: t => listStarts hay pat || listHasSub t pat

/-- Model of `str::contains` on strings. -/
def strHasSub (hay pat : String) : Bool := listHasSub hay.data pat.data

/-- One step of the extraction loop of `parse_audio_metadata`
(src/src-tauri/src/lib.rs:547-565): an if/else-if cascade on the `Debug`
rendering of the item key, each role taking the first matching item whose
slot is still empty. -/
def stepTagItem (acc : RawTags) (item : TagItem) : RawTags :=
  match item.text with
  | none => acc
  | some t =>
    if strHasSub item.key_debug "Title" && acc.title.isEmpty then
      { acc with title := t }
    else if strHasSub item.key_debug "Artist" && acc.artist.isEmpty then
      { acc with artist := t }
    else if strHasSub item.key_debug "Album" && acc.album.isEmpty then
      { acc with album := t }
    else if (strHasSub item.key_debug "Lyrics" || strHasSub item.key_debug "USLT")
        && acc.lyrics.isEmpty then
      { acc with lyrics := t }
    else acc

/-- The whole extraction loop over the items of the first tag block. -/
def extractTagFields (items : List TagItem) : RawTags :=
  items.foldl stepTagItem { title := "", artist := "", album := "", lyrics := "" }

/-- The role strings extracted from the file: empty when there is no tag
block. -/
def rawTagsOf (tf : TaggedFile) : RawTags :=
  match tf.tag with
  | none => { title := "", artist := "", album := "", lyrics := "" }
  | some tag => extractTagFields tag.items

/-- The cover extraction of `parse_audio_metadata`
(src/src-tauri/src/lib.rs:567-574): only the first picture is used; its
data is base64-encoded (`b64` is the external encoder); the mime type is
recorded only when declared.  Returns `(cover_data, cover_mime)`. -/
def coverOf (b64 : String → String) (tf : TaggedFile) :
    Option String × Option String :=
  match tf.tag with
  | none => (none, none)
  | some tag =>
    match tag.pictures with
    | [] => (none, none)
    | p :: _ => (some (b64 p.data), p.mime_type)

/-- Rust `struct ParsedMetadata`. -/
structure ParsedMetadata where
  title : String
  artist : String
  album : String
  duration : ℚ
  lyrics : String
  synced_lyrics : Option (List LyricLine)
  cover_data : Option String
  cover_mime : Option String
deriving DecidableEq

/-- Rust `struct ParsedMetadataResult`. -/
structure ParsedMetadataResult where
  success : Bool
  metadata : Option ParsedMetadata
  error : Option String
deriving DecidableEq

/-- Model of `parse_audio_metadata` (src/src-tauri/src/lib.rs:508-617).
External collaborators enter as parameters: `file_stem` is
`Path::file_stem` (the base name without extension, when the path has
one), `b64` the base64 encoder, `fexists` the result of the
`PathBuf::exists` check, and `readTagged` the result of
`lofty::read_from_path`.  The title falls back to the file stem, the
artist and album to literal strings, each only when the extracted value is
empty; non-empty raw lyrics are run through `parse_lrc_lyrics`. -/
def parse_audio_metadata (file_stem : String → Option String)
    (b64 : String → String) (fexists : Bool)
    (readTagged : Except String TaggedFile) (file_path : String) :
    ParsedMetadataResult :=
  if !fexists then
    { success := false, metadata := none, error := some "File does not exist" }
  else
    match readTagged with
    | .error e =>
      { success := false, metadata := none,
        error := some ("Failed to read audio file: " ++ e) }
    | .ok tf =>
      let raw := rawTagsOf tf
      let cover := coverOf b64 tf
      let title :=
        if raw.title.isEmpty then
          match file_stem file_path with
          | some stem => stem
          | none => raw.title
        else raw.title
      let artist := if raw.artist.isEmpty then "Unknown Artist" else raw.artist
      let album := if raw.album.isEmpty then "Unknown Album" else raw.album
      let lyricsPair :=
        if !raw.lyrics.isEmpty then parse_lrc_lyrics raw.lyrics
        else (raw.lyrics, none)
      { success := true
        metadata := some
          { title := title, artist := artist, album := album
            duration := tf.durationSecs
            lyrics := lyricsPair.1, synced_lyrics := lyricsPair.2
            cover_data := cover.1, cover_mime := cover.2 }
        error := none }

/-! ## Spec-side companion definitions (used to state claims) -/

/-- Whether the lyric decoder's matcher finds at least one timestamp
marker anywhere in the input (on the trimmed lines the decoder actually
scans). -/
def hasTimestampMarkers (lrc : String) : Bool :=
  (rustLines lrc.data).any fun line => !(lrcScan (trimChars line)).1.isEmpty

/-- Spec-side description of the plain-text result on marker-free input:
the input's non-blank lines, each trimmed of outer whitespace, joined by
newlines. -/
def plainOnly (lrc : String) : String :=
  String.mk (joinNL (((rustLines lrc.data).map trimChars).filter fun l => !l.isEmpty))

/-- Spec-side description (written from the claim's words, to be compared
with the matcher `lrcMatchAt` built from the source regex): a timestamp
marker starts here exactly when there is a `'['`, exactly two digits, a
`':'`, exactly two digits, then either the closing `']'` or a `'.'`
followed by exactly two or exactly three digits and the closing `']'`. -/
def validMarkerStart (cs : List Char) : Bool :=
  match cs with
  | '[' :: a :: b :: ':' :: c :: d :: rest =>
    a.isDigit && b.isDigit && c.isDigit && d.isDigit &&
      (match rest with
       | ']' :: _ => true
       | '.' :: e :: f :: ']' :: _ => e.isDigit && f.isDigit
       | '.' :: e :: f :: g :: ']' :: _ => e.isDigit && f.isDigit && g.isDigit
       | _ => false)
  | _ => false

theorem digit_toNat_bound {c : Char} (h : c.isDigit = true) :
    48 ≤ c.toNat ∧ c.toNat ≤ 57 := by
  simp [Char.isDigit, Char.le_def] at h
  obtain ⟨h1, h2⟩ := h
  exact ⟨UInt32.le_toNat_of_le (by norm_num [UInt32.size]) h1,
    UInt32.toNat_le_of_le (by norm_num [UInt32.size]) h2⟩

theorem natOfDigits_two_le {a b : Char} (ha : a.isDigit = true)
    (hb : b.isDigit = true) : natOfDigits [a, b] ≤ 99 := by
  have h1 := digit_toNat_bound ha
  have h2 := digit_toNat_bound hb
  simp [natOfDigits, List.foldl]
  omega

theorem natOfDigits_three_le {a b c : Char} (ha : a.isDigit = true)
    (hb : b.isDigit = true) (hc : c.isDigit = true) :
    natOfDigits [a, b, c] ≤ 999 := by
  have h1 := digit_toNat_bound ha
  have h2 := digit_toNat_bound hb
  have h3 := digit_toNat_bound hc
  simp [natOfDigits, List.foldl]
  omega

theorem lrcFrac_facts {cs rest : List Char} {v : Nat}
    (h : lrcFrac cs = some (v, rest)) :
    v ≤ 999 ∧ rest.length + 3 ≤ cs.length := by
  unfold lrcFrac at h
  split at h
  case _ f1 f2 r =>
    split at h
    case isTrue hdig =>
      split at h
      case _ f3 r2 =>
        split at h
        case isTrue hf3 =>
          split at h
          case _ r3 =>
            injection h with h
            injection h with hv hr
            subst hv hr
            simp only [Bool.and_eq_true] at hdig
            exact ⟨natOfDigits_three_le hdig.1 hdig.2 hf3, by simp⟩
          case _ => exact absurd h (by simp)
        case isFalse hf3 =>
          split at h
          case isTrue hbr =>
            injection h with h
            injection h with hv hr
            subst hv hr
            simp only [Bool.and_eq_true] at hdig
            have := natOfDigits_two_le hdig.1 hdig.2
            exact ⟨by omega, by simp⟩
          case isFalse => exact absurd h (by simp)
      case _ => exact absurd h (by simp)
    case isFalse => exact absurd h (by simp)
  case _ => exact absurd h (by simp)

theorem lrcMatchAt_facts {cs rest : List Char} {m s : Nat} {f : Option Nat}
    (h : lrcMatchAt cs = some (m, s, f, rest)) :
    m ≤ 99 ∧ s ≤ 99 ∧ fracMillis f ≤ 999 ∧ rest.length + 7 ≤ cs.length := by
  unfold lrcMatchAt at h
  split at h
  case _ m1 m2 s1 s2 r =>
    split at h
    case isTrue hdig =>
      simp only [Bool.and_eq_true] at hdig
      obtain ⟨⟨⟨h1, h2⟩, h3⟩, h4⟩ := hdig
      split at h
      case _ r1 =>
        injection h with h
        injection h with hm h
        injection h with hs h
        injection h with hf hr
        subst hm hs hf hr
        exact ⟨natOfDigits_two_le h1 h2, natOfDigits_two_le h3 h4, by simp [fracMillis], by simp⟩
      case _ r1 =>
        split at h
        case _ frac r2 heq =>
          injection h with h
          injection h with hm h
          injection h with hs h
          injection h with hf hr
          subst hm hs hf hr
          have hff := lrcFrac_facts heq
          refine ⟨natOfDigits_two_le h1 h2, natOfDigits_two_le h3 h4, ?_, by simp; omega⟩
          simp only [fracMillis, normalizeMillis]
          split
          · omega
          · split
            · omega
            · omega
        case _ => exact absurd h (by simp)
      case _ => exact absurd h (by simp)
    case isFalse => exact absurd h (by simp)
  case _ => exact absurd h (by simp)

theorem lrcMatchAt_rest_lt {cs rest : List Char} {m s : Nat} {f : Option Nat}
    (h : lrcMatchAt cs = some (m, s, f, rest)) : rest.length < cs.length := by
  have := lrcMatchAt_facts h
  omega

theorem lrcScanF_fuel_irrel :
    ∀ (f g : Nat) (cs : List Char), cs.length ≤ f → cs.length ≤ g →
      lrcScanF f cs = lrcScanF g cs := by
  intro f
  induction f with
  | zero =>
    intro g cs hf _
    have : cs = [] := by
      cases cs with
      | nil => rfl
      | cons c t => simp at hf
    subst this
    cases g with
    | zero => rfl
    | succ g => simp [lrcScanF, lrcMatchAt]
  | succ f ih =>
    intro g cs hf hg
    cases g with
    | zero =>
      have : cs = [] := by
        cases cs with
        | nil => rfl
        | cons c t => simp at hg
      subst this
      simp [lrcScanF, lrcMatchAt]
    | succ g =>
      show lrcScanF (f + 1) cs = lrcScanF (g + 1) cs
      cases hm : lrcMatchAt cs with
      | some val =>
        obtain ⟨m, s, fr, rest⟩ := val
        have hlt := lrcMatchAt_rest_lt hm
        simp only [lrcScanF, hm]
        rw [ih g rest (by omega) (by omega)]
      | none =>
        cases cs with
        | nil => simp [lrcScanF, lrcMatchAt]
        | cons c t =>
          simp only [lrcScanF, hm]
          rw [ih g t (by simp at hf; omega) (by simp at hg; omega)]

theorem lrcScan_nil : lrcScan [] = ([], []) := rfl

theorem lrcScan_match {cs rest : List Char} {m s : Nat} {f : Option Nat}
    (h : lrcMatchAt cs = some (m, s, f, rest)) :
    lrcScan cs = ((60000 * m + 1000 * s + fracMillis f) :: (lrcScan rest).1,
      (lrcScan rest).2) := by
  have hlt := lrcMatchAt_rest_lt h
  unfold lrcScan
  cases cs with
  | nil => simp [lrcMatchAt] at h
  | cons c t =>
    simp only [List.length_cons, lrcScanF, h]
    rw [lrcScanF_fuel_irrel t.length rest.length rest (by simp at hlt; omega) le_rfl]

theorem lrcScan_nomatch {c : Char} {cs : List Char}
    (h : lrcMatchAt (c :: cs) = none) :
    lrcScan (c :: cs) = ((lrcScan cs).1, c :: (lrcScan cs).2) := by
  unfold lrcScan
  simp only [List.length_cons, lrcScanF, h]

theorem lrcScan_bound_aux : ∀ (n : Nat) (cs : List Char), cs.length ≤ n →
    ∀ t ∈ (lrcScan cs).1, t ≤ 6039999 := by
  intro n
  induction n with
  | zero =>
    intro cs hlen t ht
    cases cs with
    | nil => simp [lrcScan_nil] at ht
    | cons c t' => simp at hlen
  | succ n ih =>
    intro cs hlen t ht
    cases hm : lrcMatchAt cs with
    | some val =>
      obtain ⟨m, s, f, rest⟩ := val
      have hf := lrcMatchAt_facts hm
      rw [lrcScan_match hm] at ht
      simp only [List.mem_cons] at ht
      rcases ht with h1 | h2
      · omega
      · exact ih rest (by omega) t h2
    | none =>
      cases cs with
      | nil => simp [lrcScan_nil] at ht
      | cons c cs' =>
        rw [lrcScan_nomatch hm] at ht
        exact ih cs' (by simp at hlen; omega) t ht

theorem lrcScan_times_bound (cs : List Char) :
    ∀ t ∈ (lrcScan cs).1, t ≤ 6039999 :=
  lrcScan_bound_aux cs.length cs le_rfl

theorem lrcScan_no_ts_aux : ∀ (n : Nat) (cs : List Char), cs.length ≤ n →
    (lrcScan cs).1 = [] → (lrcScan cs).2 = cs := by
  intro n
  induction n with
  | zero =>
    intro cs hlen _
    cases cs with
    | nil => simp [lrcScan_nil]
    | cons c t' => simp at hlen
  | succ n ih =>
    intro cs hlen h1
    cases hm : lrcMatchAt cs with
    | some val =>
      obtain ⟨m, s, f, rest⟩ := val
      rw [lrcScan_match hm] at h1
      simp at h1
    | none =>
      cases cs with
      | nil => simp [lrcScan_nil]
      | cons c cs' =>
        rw [lrcScan_nomatch hm] at h1 ⊢
        rw [ih cs' (by simp at hlen; omega) h1]

theorem dropWhile_cons_false {α : Type} {p : α → Bool} {x : α} (h : p x = false)
    (xs : List α) : (x :: xs).dropWhile p = x :: xs := by
  simp [List.dropWhile_cons, h]

theorem head?_dropWhile_false {α : Type} {p : α → Bool} :
    ∀ {l : List α} {x : α}, (l.dropWhile p).head? = some x → p x = false := by
  intro l
  induction l with
  | nil => intro x h; simp at h
  | cons a l' ih =>
    intro x h
    cases hp : p a with
    | true => rw [List.dropWhile_cons, if_pos (by simp [hp])] at h; exact ih h
    | false =>
      rw [List.dropWhile_cons, if_neg (by simp [hp])] at h
      simp at h
      rw [← h, hp]

theorem getLast?_dropWhile {α : Type} {p : α → Bool} :
    ∀ {l : List α}, l.dropWhile p ≠ [] → (l.dropWhile p).getLast? = l.getLast? := by
  intro l
  induction l with
  | nil => intro h; simp at h
  | cons a l' ih =>
    intro h
    cases hp : p a with
    | true =>
      rw [List.dropWhile_cons, if_pos (by simp [hp])] at h ⊢
      have hne : l' ≠ [] := by
        intro he; subst he; simp [List.dropWhile] at h
      rw [ih h, List.getLast?_cons]
      cases hl : l'.getLast? with
      | none => exact absurd (List.getLast?_eq_none_iff.mp hl) hne
      | some y => simp
    | false => rw [List.dropWhile_cons, if_neg (by simp [hp])]

theorem dropWhile_head_self {α : Type} {p : α → Bool} {l : List α}
    (h : ∀ x, l.head? = some x → p x = false) : l.dropWhile p = l := by
  cases l with
  | nil => rfl
  | cons a l' => exact dropWhile_cons_false (h a rfl) l'

theorem trimChars_idem (cs : List Char) : trimChars (trimChars cs) = trimChars cs := by
  unfold trimChars
  set A := cs.dropWhile isWsChar with hA
  set B := A.reverse.dropWhile isWsChar with hB
  have hBdrop : B.reverse.dropWhile isWsChar = B.reverse := by
    apply dropWhile_head_self
    intro x hx
    rw [List.head?_reverse] at hx
    by_cases hBe : B = []
    · rw [hBe] at hx; simp at hx
    · rw [hB, getLast?_dropWhile (by rw [← hB]; exact hBe)] at hx
      rw [List.getLast?_reverse] at hx
      exact head?_dropWhile_false (by rw [← hA]; exact hx)
  rw [hBdrop, List.reverse_reverse]
  congr 1
  apply dropWhile_head_self
  intro x hx
  exact head?_dropWhile_false hx

theorem mk_data (s : String) : String.mk s.data = s := rfl

theorem parse_eval_nil {lrc : String} (h : lrcRawEntries lrc = []) :
    parse_lrc_lyrics lrc = (String.mk (joinNL (lrcPlainLines lrc)), none) := by
  simp [parse_lrc_lyrics, h]

theorem parse_eval_sorted {lrc : String} {raw : List LyricLine}
    (h : lrcRawEntries lrc = raw)
    (hs : raw.Pairwise fun a b => lyricTimeLe a b)
    (hne : raw ≠ []) :
    parse_lrc_lyrics lrc = (String.mk (joinNL (lrcPlainLines lrc)), some raw) := by
  simp [parse_lrc_lyrics, h, List.mergeSort_of_sorted hs, hne]

/-- C1, counterexample: the input `"[00:00.5]X"` of the claim does not
yield a synced entry at 0.5 seconds; a 1-digit fractional field never
matches the timestamp regex, so the marker stays in the display text and
the synced timeline is absent. -/
theorem C1_counterexample :
    parse_lrc_lyrics "[00:00.5]X" = ("[00:00.5]X", none) := by
  rw [@parse_eval_nil "[00:00.5]X" (by decide)]
  decide

/-- C1, amended: the decoder normalizes the parsed numeric value of the
2-3 digit fractional field to thousandths by value (a value below 10 is
scaled by 100, a value below 100 by 10, larger values are used as-is);
`[00:12.34]Hello` decodes to 12.34 s, `[01:02]Hi` to 62.0 s, and
`[00:00.05]X` (2-digit field of value 5) to 0.5 s, while `[00:00.5]X`
(1-digit field) is not recognized as a marker at all. -/
theorem C1_amended :
    parse_lrc_lyrics "[00:12.34]Hello" = ("Hello", some [{ timeMs := 12340, text := "Hello" }]) ∧
    msToSeconds 12340 = 12.34 ∧
    parse_lrc_lyrics "[01:02]Hi" = ("Hi", some [{ timeMs := 62000, text := "Hi" }]) ∧
    msToSeconds 62000 = 62 ∧
    parse_lrc_lyrics "[00:00.5]X" = ("[00:00.5]X", none) ∧
    parse_lrc_lyrics "[00:00.05]X" = ("X", some [{ timeMs := 500, text := "X" }]) ∧
    msToSeconds 500 = 0.5 ∧
    (∀ m : Nat, m < 10 → normalizeMillis m = m * 100) ∧
    (∀ m : Nat, 10 ≤ m → m < 100 → normalizeMillis m = m * 10) ∧
    (∀ m : Nat, 100 ≤ m → normalizeMillis m = m) := by
  refine ⟨?_, by norm_num [msToSeconds], ?_, by norm_num [msToSeconds], ?_, ?_,
    by norm_num [msToSeconds], ?_, ?_, ?_⟩
  · rw [@parse_eval_sorted "[00:12.34]Hello" [{ timeMs := 12340, text := "Hello" }]
      (by decide) (by decide) (by decide)]
    decide
  · rw [@parse_eval_sorted "[01:02]Hi" [{ timeMs := 62000, text := "Hi" }]
      (by decide) (by decide) (by decide)]
    decide
  · rw [@parse_eval_nil "[00:00.5]X" (by decide)]
    decide
  · rw [@parse_eval_sorted "[00:00.05]X" [{ timeMs := 500, text := "X" }]
      (by decide) (by decide) (by decide)]
    decide
  · intro m hm; simp [normalizeMillis, hm]
  · intro m hm1 hm2
    unfold normalizeMillis
    rw [if_neg (by omega), if_pos hm2]
  · intro m hm
    unfold normalizeMillis
    rw [if_neg (by omega), if_neg (by omega)]

theorem lrcMatchAt_isSome_iff (cs : List Char) :
    (lrcMatchAt cs).isSome = true ↔ validMarkerStart cs = true := by
  constructor
  · intro h
    rw [Option.isSome_iff_exists] at h
    obtain ⟨⟨m, s, f, rest⟩, hm⟩ := h
    unfold lrcMatchAt at hm
    split at hm
    case _ m1 m2 s1 s2 r =>
      split at hm
      case isTrue hdig =>
        simp only [Bool.and_eq_true] at hdig
        obtain ⟨⟨⟨h1, h2⟩, h3⟩, h4⟩ := hdig
        split at hm
        case _ r1 => simp [validMarkerStart, h1, h2, h3, h4]
        case _ r1 =>
          cases hfr : lrcFrac r1 with
          | none => rw [hfr] at hm; simp at hm
          | some vr =>
            obtain ⟨v, r2⟩ := vr
            unfold lrcFrac at hfr
            split at hfr
            case _ f1 f2 rr =>
              split at hfr
              case isTrue hdig2 =>
                simp only [Bool.and_eq_true] at hdig2
                obtain ⟨hf1, hf2⟩ := hdig2
                split at hfr
                case _ f3 rr2 =>
                  split at hfr
                  case isTrue hf3 =>
                    split at hfr
                    case _ rr3 =>
                      injection hfr with hfr
                      injection hfr with hv hr
                      subst hv hr
                      have hch : (']' : Char).isDigit = false := by decide
                      simp only [validMarkerStart, h1, h2, h3, h4, Bool.and_self,
                        Bool.true_and]
                      split
                      case h_4 hno1 hno2 =>
                        exact (hno2 f1 f2 f3 rr3 rfl).elim
                      all_goals simp_all
                    case _ => exact absurd hfr (by simp)
                  case isFalse hf3 =>
                    split at hfr
                    case isTrue hbr =>
                      subst hbr
                      simp [validMarkerStart, h1, h2, h3, h4, hf1, hf2]
                    case isFalse => exact absurd hfr (by simp)
                case _ => exact absurd hfr (by simp)
              case isFalse => exact absurd hfr (by simp)
            case _ => exact absurd hfr (by simp)
        case _ => exact absurd hm (by simp)
      case isFalse => exact absurd hm (by simp)
    case _ => exact absurd hm (by simp)
  · intro h
    unfold validMarkerStart at h
    split at h
    case _ a b c d rest =>
      simp only [Bool.and_eq_true] at h
      obtain ⟨⟨⟨⟨h1, h2⟩, h3⟩, h4⟩, hrest⟩ := h
      split at hrest
      case _ r1 => simp [lrcMatchAt, h1, h2, h3, h4]
      case _ e f r1 =>
        simp only [Bool.and_eq_true] at hrest
        obtain ⟨he, hf⟩ := hrest
        have hch : (']' : Char).isDigit = false := by decide
        simp [lrcMatchAt, lrcFrac, h1, h2, h3, h4, he, hf, hch]
      case _ e f g r1 =>
        simp only [Bool.and_eq_true] at hrest
        obtain ⟨⟨he, hf⟩, hg⟩ := hrest
        simp [lrcMatchAt, lrcFrac, h1, h2, h3, h4, he, hf, hg]
      case _ => simp at hrest
    case _ => simp at h

/-- C8: the matcher accepts a timestamp marker exactly when minutes and
seconds are two digits each and the fractional part, if present, is two or
three digits; a malformed marker such as `[1:02]` or one with a single
fractional digit does not match, stays in the display text, and produces
no synced entry. -/
theorem C8_marker_shape :
    (∀ cs : List Char, (lrcMatchAt cs).isSome = true ↔ validMarkerStart cs = true) ∧
    parse_lrc_lyrics "[1:02]Hi" = ("[1:02]Hi", none) ∧
    parse_lrc_lyrics "[00:00.5]X" = ("[00:00.5]X", none) := by
  refine ⟨lrcMatchAt_isSome_iff, ?_, ?_⟩
  · rw [@parse_eval_nil "[1:02]Hi" (by decide)]
    decide
  · rw [@parse_eval_nil "[00:00.5]X" (by decide)]
    decide

theorem lyricTimeLe_trans : ∀ a b c : LyricLine,
    lyricTimeLe a b → lyricTimeLe b c → lyricTimeLe a c := by
  intro a b c hab hbc
  simp [lyricTimeLe] at *
  omega

theorem lyricTimeLe_total : ∀ a b : LyricLine,
    lyricTimeLe a b || lyricTimeLe b a := by
  intro a b
  simp [lyricTimeLe]
  omega

theorem parse_snd_some {lrc : String} {tl : List LyricLine}
    (h : (parse_lrc_lyrics lrc).2 = some tl) :
    tl = (lrcRawEntries lrc).mergeSort lyricTimeLe ∧ tl ≠ [] := by
  simp only [parse_lrc_lyrics] at h
  split at h
  · simp at h
  · rename_i hne
    injection h with h
    subst h
    exact ⟨rfl, by simpa using hne⟩

/-- C5: whenever the decoder returns a synced timeline it is non-empty
and sorted non-decreasingly by time, and for every time value the entries
holding it appear in exactly the order the decoding loop produced them
(input line order): the sort is stable. -/
theorem C5_sorted_stable (lrc : String) (tl : List LyricLine)
    (h : (parse_lrc_lyrics lrc).2 = some tl) :
    tl ≠ [] ∧
    List.Pairwise (fun a b => a.timeMs ≤ b.timeMs) tl ∧
    ∀ t : Nat, tl.filter (fun e => e.timeMs == t) =
      (lrcRawEntries lrc).filter (fun e => e.timeMs == t) := by
  obtain ⟨htl, hne⟩ := parse_snd_some h
  subst htl
  refine ⟨hne, ?_, ?_⟩
  · have hs := List.sorted_mergeSort lyricTimeLe_trans (fun a b => lyricTimeLe_total a b)
      (lrcRawEntries lrc)
    exact hs.imp (fun hab => by simpa [lyricTimeLe] using hab)
  · intro t
    have hpw : ((lrcRawEntries lrc).filter (fun e => e.timeMs == t)).Pairwise
        (fun a b => lyricTimeLe a b = true) := by
      apply List.pairwise_of_forall_mem_list
      intro a ha b hb
      simp only [List.mem_filter, beq_iff_eq] at ha hb
      simp [lyricTimeLe, ha.2, hb.2]
    have hsub := List.sublist_mergeSort lyricTimeLe_trans
      (fun a b => lyricTimeLe_total a b) hpw (List.filter_sublist (lrcRawEntries lrc))
    have hsub2 := hsub.filter (fun e => e.timeMs == t)
    rw [List.filter_filter] at hsub2
    simp only [Bool.and_self] at hsub2
    have hlen := ((List.mergeSort_perm (lrcRawEntries lrc) lyricTimeLe).filter
      (fun e => e.timeMs == t)).length_eq
    exact (hsub2.eq_of_length hlen.symm).symm

theorem mem_lrcRawEntries_bound {lrc : String} {e : LyricLine}
    (he : e ∈ lrcRawEntries lrc) : e.timeMs ≤ 6039999 := by
  simp only [lrcRawEntries, List.mem_flatMap] at he
  obtain ⟨line, _, he2⟩ := he
  split at he2
  · simp at he2
  · split at he2
    · simp only [List.mem_map] at he2
      obtain ⟨tm, htm, rfl⟩ := he2
      simp only [lrcLineData] at htm
      exact lrcScan_times_bound (trimChars line) tm htm
    · simp at he2

/-- C10: every time the decoder emits is a finite non-negative number,
bounded by the largest representable marker (99 minutes, 99 seconds,
999 milliseconds), and the comparison used by the sort is total, so the
`partial_cmp(..).unwrap()` in the Rust sort can never observe NaN and the
decoder is total. -/
theorem C10_total_and_bounded (lrc : String) (tl : List LyricLine)
    (h : (parse_lrc_lyrics lrc).2 = some tl) :
    (∀ e ∈ tl, e.timeMs ≤ 6039999 ∧ 0 ≤ msToSeconds e.timeMs ∧
      msToSeconds e.timeMs < 6040) ∧
    (∀ a b : LyricLine, lyricTimeLe a b = true ∨ lyricTimeLe b a = true) := by
  constructor
  · intro e he
    obtain ⟨htl, _⟩ := parse_snd_some h
    subst htl
    rw [List.mem_mergeSort] at he
    have hb := mem_lrcRawEntries_bound he
    refine ⟨hb, ?_, ?_⟩
    · unfold msToSeconds
      positivity
    · unfold msToSeconds
      rw [div_lt_iff₀ (by norm_num)]
      have hcast : (e.timeMs : ℚ) ≤ 6039999 := by exact_mod_cast hb
      linarith
  · intro a b
    simp [lyricTimeLe]
    omega

theorem lrcScan_no_ts {cs : List Char} (h : (lrcScan cs).1 = []) :
    (lrcScan cs).2 = cs :=
  lrcScan_no_ts_aux cs.length cs le_rfl h

theorem raw_nil_of_no_ts {lrc : String}
    (h : ∀ line ∈ rustLines lrc.data, (lrcScan (trimChars line)).1 = []) :
    lrcRawEntries lrc = [] := by
  unfold lrcRawEntries
  rw [List.flatMap_eq_nil_iff]
  intro line hline
  by_cases hb : (trimChars line).isEmpty
  · simp [hb]
  · simp only [hb, if_false, Bool.false_eq_true]
    have := h line hline
    simp [lrcLineData, this]

theorem plainLines_eq_aux : ∀ (ls : List (List Char)),
    (∀ line ∈ ls, (lrcScan (trimChars line)).1 = []) →
    (ls.filterMap fun line =>
      if (trimChars line).isEmpty then none
      else
        let p := lrcLineData line
        if p.2.isEmpty then none else some p.2) =
      (ls.map trimChars).filter fun l => !l.isEmpty := by
  intro ls
  induction ls with
  | nil => intro _; rfl
  | cons a t ih =>
    intro h
    have ha := h a (by simp)
    have ht : ∀ line ∈ t, (lrcScan (trimChars line)).1 = [] := fun l hl => h l (by simp [hl])
    rw [List.filterMap_cons, List.map_cons, List.filter_cons]
    by_cases hb : (trimChars a).isEmpty
    · simp only [hb, if_true]
      rw [ih ht]
      simp [List.isEmpty_iff.mp hb]
    · have htext : (lrcLineData a).2 = trimChars a := by
        simp only [lrcLineData]
        rw [lrcScan_no_ts ha, trimChars_idem]
      simp only [hb, if_false, Bool.false_eq_true, htext]
      rw [ih ht]
      simp only [hb, Bool.not_false]
      rfl

/-- C6, amended: on input without timestamp markers the decoder returns
no synced timeline, and the plain text is the newline-join of the input's
non-blank lines each trimmed of outer whitespace (not the input string
itself, which the original claim asserted). -/
theorem C6_amended (lrc : String) (h : hasTimestampMarkers lrc = false) :
    parse_lrc_lyrics lrc = (plainOnly lrc, none) := by
  have hall : ∀ line ∈ rustLines lrc.data, (lrcScan (trimChars line)).1 = [] := by
    simp only [hasTimestampMarkers, List.any_eq_false] at h
    intro line hl
    have := h line hl
    simpa using this
  rw [parse_eval_nil (raw_nil_of_no_ts hall)]
  unfold plainOnly lrcPlainLines
  rw [plainLines_eq_aux (rustLines lrc.data) hall]

/-- C6, counterexample: the marker-free input `"A\n\nB"` is not returned
unchanged; the blank line is dropped, refuting the claim as stated. -/
theorem C6_counterexample :
    hasTimestampMarkers "A\n\nB" = false ∧
    parse_lrc_lyrics "A\n\nB" ≠ ("A\n\nB", none) ∧
    parse_lrc_lyrics "A\n\nB" = ("A\nB", none) := by
  refine ⟨by decide, ?_, ?_⟩
  · rw [@parse_eval_nil "A\n\nB" (by decide)]
    decide
  · rw [@parse_eval_nil "A\n\nB" (by decide)]
    decide

theorem listStarts_head {a : Char} {as l : List Char}
    (h : listStarts (a :: as) l = true) : ∃ t, l = a :: t := by
  cases l with
  | nil => simp [listStarts] at h
  | cons b t =>
    simp only [listStarts, Bool.and_eq_true, decide_eq_true_eq] at h
    exact ⟨t, by rw [← h.1]⟩

theorem ends_excl {s : String} {c1 c2 : Char} {t1 t2 : List Char} (hne : c2 ≠ c1)
    (h1 : listStarts (c1 :: t1) s.data.reverse = true) :
    listStarts (c2 :: t2) s.data.reverse = false := by
  obtain ⟨t, ht⟩ := listStarts_head h1
  rw [ht]
  simp only [listStarts, Bool.and_eq_false_iff]
  left
  simpa using hne

/-- C2: the streaming responder answers 400 when no path resolves, 404
when the resolved path does not exist, 200 with the extension-derived
Content-Type header when the read succeeds (`.flac` to audio/flac, `.mp3`
to audio/mpeg, `.m4a` to audio/mp4, `.wav` to audio/wav, anything else to
audio/flac), and 500 carrying the read error text when the read fails
after the existence check. -/
theorem C2_responder (fsys : FileSystem) (decode : String → Option String)
    (path : String) (query : Option String) :
    (resolveFilePath decode path query = none →
      handle_request fsys decode path query =
        { status := 400, headers := [], body := "Invalid request" }) ∧
    (∀ fp, resolveFilePath decode path query = some fp →
      fsys.pathExists fp = false →
      handle_request fsys decode path query =
        { status := 404, headers := [], body := "File not found" }) ∧
    (∀ fp data, resolveFilePath decode path query = some fp →
      fsys.pathExists fp = true → fsys.readFile fp = .ok data →
      handle_request fsys decode path query =
        { status := 200
          headers := [("Content-Type", audioContentType fp),
                      ("Access-Control-Allow-Origin", "*"),
                      ("Access-Control-Allow-Methods", "GET, HEAD, OPTIONS"),
                      ("Accept-Ranges", "bytes")]
          body := data }) ∧
    (∀ fp e, resolveFilePath decode path query = some fp →
      fsys.pathExists fp = true → fsys.readFile fp = .error e →
      handle_request fsys decode path query =
        { status := 500, headers := [], body := "Failed to read file: " ++ e }) ∧
    (∀ s, strEnds s ".flac" = true → audioContentType s = "audio/flac") ∧
    (∀ s, strEnds s ".mp3" = true → audioContentType s = "audio/mpeg") ∧
    (∀ s, strEnds s ".m4a" = true → audioContentType s = "audio/mp4") ∧
    (∀ s, strEnds s ".wav" = true → audioContentType s = "audio/wav") ∧
    (∀ s, strEnds s ".flac" = false → strEnds s ".mp3" = false →
      strEnds s ".m4a" = false → strEnds s ".wav" = false →
      audioContentType s = "audio/flac") := by
  refine ⟨?_, ?_, ?_, ?_, ?_, ?_, ?_, ?_, ?_⟩
  · intro hres
    simp [handle_request, hres]
  · intro fp hres hex
    simp [handle_request, hres, hex]
  · intro fp data hres hex hread
    simp [handle_request, hres, hex, hread]
  · intro fp e hres hex hread
    simp [handle_request, hres, hex, hread]
  · intro s h
    simp [audioContentType, h]
  · intro s h
    have hfl : strEnds s ".flac" = false := ends_excl (by decide) h
    simp [audioContentType, h, hfl]
  · intro s h
    have hfl : strEnds s ".flac" = false := ends_excl (by decide) h
    have hmp : strEnds s ".mp3" = false := ends_excl (by decide) h
    simp [audioContentType, h, hfl, hmp]
  · intro s h
    have hfl : strEnds s ".flac" = false := ends_excl (by decide) h
    have hmp : strEnds s ".mp3" = false := ends_excl (by decide) h
    have hm4 : strEnds s ".m4a" = false := ends_excl (by decide) h
    simp [audioContentType, h, hfl, hmp, hm4]
  · intro s h1 h2 h3 h4
    simp [audioContentType, h1, h2, h3, h4]

theorem listStarts_append (pre rest : List Char) :
    listStarts pre (pre ++ rest) = true := by
  induction pre with
  | nil => rfl
  | cons a t ih => simp [listStarts, ih]

/-- C9: the path-segment form `/audio-file/` wins over the `path` query
parameter whenever the request path carries the segment, and the segment
remainder is used verbatim (independent of the decoder), while the
query-parameter form passes its value through the percent-decoder. -/
theorem C9_resolution :
    (∀ (decode : String → Option String) (rest : String) (query : Option String),
      resolveFilePath decode ("/audio-file/" ++ rest) query = some rest) ∧
    (∀ (decode : String → Option String) (path q : String) (seg : String),
      strStarts path "/audio-file/" = false →
      (strSplit '&' q).find? (fun s => strStarts s "path=") = some seg →
      resolveFilePath decode path (some q) = decode (strDropN seg 5)) ∧
    (∀ (decode : String → Option String) (path q : String),
      strStarts path "/audio-file/" = false →
      (strSplit '&' q).find? (fun s => strStarts s "path=") = none →
      resolveFilePath decode path (some q) = none) := by
  refine ⟨?_, ?_, ?_⟩
  · intro decode rest query
    have hst : strStarts ("/audio-file/" ++ rest) "/audio-file/" = true := by
      unfold strStarts
      rw [String.data_append]
      exact listStarts_append _ _
    unfold resolveFilePath
    rw [if_pos hst]
    unfold strDropN
    rw [String.data_append, List.drop_left, mk_data]
  · intro decode path q seg hst hfind
    unfold resolveFilePath
    rw [if_neg (by simp [hst])]
    simp [hfind]
  · intro decode path q hst hfind
    unfold resolveFilePath
    rw [if_neg (by simp [hst])]
    simp [hfind]

/-- C3: loading the metadata cache with no persisted document succeeds
with an empty mapping, while a persisted document that fails to parse
yields an error; the two outcomes are distinguishable. -/
theorem C3_cache_load (parseCache : String → Option MetadataCache) :
    load_metadata_cache parseCache none = .ok { entries := [] } ∧
    (∀ doc, parseCache doc = none →
      load_metadata_cache parseCache (some doc) =
        .error "failed to parse metadata cache JSON") ∧
    (∀ doc, parseCache doc = none →
      load_metadata_cache parseCache (some doc) ≠
        load_metadata_cache parseCache none) := by
  refine ⟨rfl, ?_, ?_⟩
  · intro doc hdoc
    simp [load_metadata_cache, hdoc]
  · intro doc hdoc
    simp [load_metadata_cache, hdoc]

/-- C7: saving the metadata cache and then loading it returns the saved
mapping, given that the external serializer round-trips (parsing the
serialized document yields the value back), which is the contract of the
serde derive pair the Rust code relies on. -/
theorem C7_roundtrip (serCache : MetadataCache → String)
    (parseCache : String → Option MetadataCache) (cache : MetadataCache)
    (hround : parseCache (serCache cache) = some cache) :
    load_metadata_cache parseCache (save_metadata_cache serCache cache) =
      .ok cache := by
  simp [load_metadata_cache, save_metadata_cache, hround]

/-- C4: when the file exists, the container parses, and tag extraction
yields only empty values with no embedded picture, the metadata falls back
to the file stem as title, the literal "Unknown Artist" and
"Unknown Album", empty lyrics, no synced timeline and no cover; and each
of the three fallbacks is applied only when the extracted value is empty. -/
theorem C4_fallbacks (file_stem : String → Option String) (b64 : String → String)
    (tf : TaggedFile) (file_path stem : String)
    (hraw : rawTagsOf tf = { title := "", artist := "", album := "", lyrics := "" })
    (hcover : coverOf b64 tf = (none, none))
    (hstem : file_stem file_path = some stem) :
    parse_audio_metadata file_stem b64 true (.ok tf) file_path =
      { success := true
        metadata := some
          { title := stem, artist := "Unknown Artist", album := "Unknown Album"
            duration := tf.durationSecs, lyrics := ""
            synced_lyrics := none, cover_data := none, cover_mime := none }
        error := none } ∧
    (∀ (tf' : TaggedFile) (fp' : String), (rawTagsOf tf').title ≠ "" →
      ((parse_audio_metadata file_stem b64 true (.ok tf') fp').metadata.map
        fun m => m.title) = some (rawTagsOf tf').title) ∧
    (∀ (tf' : TaggedFile) (fp' : String), (rawTagsOf tf').artist ≠ "" →
      ((parse_audio_metadata file_stem b64 true (.ok tf') fp').metadata.map
        fun m => m.artist) = some (rawTagsOf tf').artist) ∧
    (∀ (tf' : TaggedFile) (fp' : String), (rawTagsOf tf').album ≠ "" →
      ((parse_audio_metadata file_stem b64 true (.ok tf') fp').metadata.map
        fun m => m.album) = some (rawTagsOf tf').album) := by
  refine ⟨?_, ?_, ?_, ?_⟩
  · have h0 : ("" : String).isEmpty = true := rfl
    simp [parse_audio_metadata, hraw, hcover, hstem, h0]
  · intro tf' fp' hne
    have hf : (rawTagsOf tf').title.isEmpty = false := by
      rw [Bool.eq_false_iff]
      intro hc
      exact hne ((String.isEmpty_iff _).mp hc)
    simp [parse_audio_metadata, hf]
  · intro tf' fp' hne
    have hf : (rawTagsOf tf').artist.isEmpty = false := by
      rw [Bool.eq_false_iff]
      intro hc
      exact hne ((String.isEmpty_iff _).mp hc)
    simp [parse_audio_metadata, hf]
  · intro tf' fp' hne
    have hf : (rawTagsOf tf').album.isEmpty = false := by
      rw [Bool.eq_false_iff]
      intro hc
      exact hne ((String.isEmpty_iff _).mp hc)
    simp [parse_audio_metadata, hf]

/-- C1, witness: the three normalization clauses of the amended claim
evaluated at the concrete values 5, 34 and 123. -/
theorem C1_amended_witness :
    normalizeMillis 5 = 500 ∧ normalizeMillis 34 = 340 ∧ normalizeMillis 123 = 123 :=
  ⟨C1_amended.2.2.2.2.2.2.2.1 5 (by decide),
   C1_amended.2.2.2.2.2.2.2.2.1 34 (by decide) (by decide),
   C1_amended.2.2.2.2.2.2.2.2.2 123 (by decide)⟩

/-- C2, witness: the four statuses and the mp3 content type observed on a
concrete filesystem with one readable and one unreadable file. -/
theorem C2_responder_witness :
    (handle_request
      { pathExists := fun p => p = "a.mp3" || p = "b.flac"
        readFile := fun p => if p = "a.mp3" then .ok "DATA" else .error "denied" }
      some "/x" none).status = 400 ∧
    (handle_request
      { pathExists := fun p => p = "a.mp3" || p = "b.flac"
        readFile := fun p => if p = "a.mp3" then .ok "DATA" else .error "denied" }
      some "/audio-file/c.mp3" none).status = 404 ∧
    (handle_request
      { pathExists := fun p => p = "a.mp3" || p = "b.flac"
        readFile := fun p => if p = "a.mp3" then .ok "DATA" else .error "denied" }
      some "/audio-file/a.mp3" none).status = 200 ∧
    (handle_request
      { pathExists := fun p => p = "a.mp3" || p = "b.flac"
        readFile := fun p => if p = "a.mp3" then .ok "DATA" else .error "denied" }
      some "/audio-file/b.flac" none).status = 500 ∧
    audioContentType "a.mp3" = "audio/mpeg" := by
  refine ⟨?_, ?_, ?_, ?_, ?_⟩
  · rw [(C2_responder _ some "/x" none).1 (by decide)]
  · rw [(C2_responder _ some "/audio-file/c.mp3" none).2.1 "c.mp3" (by decide) (by decide)]
  · rw [(C2_responder _ some "/audio-file/a.mp3" none).2.2.1 "a.mp3" "DATA"
      (by decide) (by decide) rfl]
  · rw [(C2_responder _ some "/audio-file/b.flac" none).2.2.2.1 "b.flac" "denied"
      (by decide) (by decide) rfl]
  · exact (C2_responder
      { pathExists := fun p => p = "a.mp3" || p = "b.flac"
        readFile := fun p => if p = "a.mp3" then .ok "DATA" else .error "denied" }
      some "/x" none).2.2.2.2.2.1 "a.mp3" (by decide)

/-- C3, witness: a parser that rejects everything makes a concrete
persisted document load as an error while the missing-document load still
succeeds with the empty mapping. -/
theorem C3_cache_load_witness :
    load_metadata_cache (fun _ => none) (some "corrupt") =
      .error "failed to parse metadata cache JSON" ∧
    load_metadata_cache (fun _ => none) none = .ok { entries := [] } :=
  ⟨(C3_cache_load (fun _ => none)).2.1 "corrupt" rfl,
   (C3_cache_load (fun _ => none)).1⟩

/-- C4, witness: extraction on a concrete tagless file. -/
theorem C4_fallbacks_witness :
    parse_audio_metadata (fun _ => some "song") (fun s => s) true
      (.ok { durationSecs := 0, tag := none }) "/music/song.mp3" =
      { success := true
        metadata := some
          { title := "song", artist := "Unknown Artist", album := "Unknown Album"
            duration := 0, lyrics := ""
            synced_lyrics := none, cover_data := none, cover_mime := none }
        error := none } :=
  (C4_fallbacks (fun _ => some "song") (fun s => s)
    { durationSecs := 0, tag := none } "/music/song.mp3" "song" rfl rfl rfl).1

/-- C5, witness: the timeline decoded from a concrete two-line input. -/
theorem C5_sorted_stable_witness :
    [({ timeMs := 1000, text := "A" } : LyricLine), { timeMs := 2000, text := "B" }] ≠ [] ∧
    List.Pairwise (fun a b => a.timeMs ≤ b.timeMs)
      [({ timeMs := 1000, text := "A" } : LyricLine), { timeMs := 2000, text := "B" }] ∧
    ∀ t : Nat,
      ([({ timeMs := 1000, text := "A" } : LyricLine),
        { timeMs := 2000, text := "B" }].filter fun e => e.timeMs == t) =
      ((lrcRawEntries "[00:01]A\n[00:02]B").filter fun e => e.timeMs == t) :=
  C5_sorted_stable "[00:01]A\n[00:02]B"
    [{ timeMs := 1000, text := "A" }, { timeMs := 2000, text := "B" }]
    (by rw [@parse_eval_sorted "[00:01]A\n[00:02]B"
      [{ timeMs := 1000, text := "A" }, { timeMs := 2000, text := "B" }]
      (by decide) (by decide) (by decide)])

/-- C6, witness: the amended claim evaluated on a concrete marker-free
input with outer whitespace and a blank line. -/
theorem C6_amended_witness :
    parse_lrc_lyrics " A \n\nB" = ("A\nB", none) := by
  have h := C6_amended " A \n\nB" (by decide)
  rw [h]
  decide

/-- C7, witness: a concrete one-entry cache round-trips through a
concrete serialize/parse pair. -/
theorem C7_roundtrip_witness :
    load_metadata_cache
      (fun s => if s = "DOC" then
        some { entries := [("id1",
          { title := "T", artist := "Ar", album := "Al", duration := 0, lyrics := ""
            synced_lyrics := none, cover_data := none, cover_mime := none
            file_name := "t.mp3", file_size := 10, last_modified := 5 })] }
        else none)
      (save_metadata_cache (fun _ => "DOC")
        { entries := [("id1",
          { title := "T", artist := "Ar", album := "Al", duration := 0, lyrics := ""
            synced_lyrics := none, cover_data := none, cover_mime := none
            file_name := "t.mp3", file_size := 10, last_modified := 5 })] }) =
      .ok { entries := [("id1",
        { title := "T", artist := "Ar", album := "Al", duration := 0, lyrics := ""
          synced_lyrics := none, cover_data := none, cover_mime := none
          file_name := "t.mp3", file_size := 10, last_modified := 5 })] } :=
  C7_roundtrip _ _ _ rfl

/-- C9, witness: with a decoder that appends a marker character, the
segment form is untouched while the query form is decoded. -/
theorem C9_resolution_witness :
    resolveFilePath (fun s => some (s ++ "!")) ("/audio-file/" ++ "/tmp/a.mp3")
      (some "path=x") = some "/tmp/a.mp3" ∧
    resolveFilePath (fun s => some (s ++ "!")) "/audio-file" (some "a=1&path=x") =
      some "x!" := by
  refine ⟨C9_resolution.1 _ "/tmp/a.mp3" _, ?_⟩
  rw [C9_resolution.2.1 (fun s => some (s ++ "!")) "/audio-file" "a=1&path=x" "path=x"
    (by decide) (by decide)]
  decide

/-- C10, witness: the bounds instantiated at the entry decoded from a
concrete input. -/
theorem C10_total_and_bounded_witness :
    ({ timeMs := 12340, text := "Hello" } : LyricLine).timeMs ≤ 6039999 ∧
    0 ≤ msToSeconds ({ timeMs := 12340, text := "Hello" } : LyricLine).timeMs ∧
    msToSeconds ({ timeMs := 12340, text := "Hello" } : LyricLine).timeMs < 6040 :=
  (C10_total_and_bounded "[00:12.34]Hello" [{ timeMs := 12340, text := "Hello" }]
    (by rw [@parse_eval_sorted "[00:12.34]Hello" [{ timeMs := 12340, text := "Hello" }]
      (by decide) (by decide) (by decide)])).1
    { timeMs := 12340, text := "Hello" } (by decide)
